import Mathlib

/-!
# Verification of the PCSX2 input-recording file store

Shallow embedding of `src/pcsx2/Recording/InputRecordingFile.cpp`
(`InputRecordingFileHeader` and `InputRecordingFile`).

The open file is modelled as its byte contents, a `List Nat` (each entry a
byte value); `none` for the `recordingFile` field models a null `FILE*`.
Positioned writes (`fseek` + `fwrite`) that land past the end of the file
extend it, filling the gap with zero bytes (POSIX sparse-file semantics);
positioned reads past the end fail (`fread` returns the number of bytes
actually available).

The companion header `InputRecordingFile.h` is not part of the provided
sources; the constants it declares (field capacities, per-port byte count,
seek points) are modelled from the spec's data-model and file-layout
sections, with the per-port byte count pinned to 18 by the literal `18`
in `InputRecordingFile::WriteKeyBuffer`.
-/

namespace InputRec

/-- Modelled from the spec: the companion header declares the number of raw
input bytes per controller port (`controllerInputBytes`); the spec calls it a
fixed-width per-port block, and the write path at `InputRecordingFile.cpp:245`
hard-codes `18` bytes per port, which the read path must agree with. -/
def controllerInputBytes : Nat := 18

/-- Modelled from the spec: the companion header declares the number of
supported controller ports; the per-frame record covers every port. -/
def controllerPortsSupported : Nat := 2

/-- Bytes per frame record across all ports. -/
def inputBytesPerFrame : Nat := controllerInputBytes * controllerPortsSupported

/-- Modelled from the spec: capacity of the fixed-capacity emulator-identity
text field (`char emu[...]` in the companion header). The exact number is
immaterial to every claim; the real header uses 50. -/
def emuCapacity : Nat := 50

/-- Modelled from the spec: capacity of the author text field. -/
def authorCapacity : Nat := 255

/-- Modelled from the spec: capacity of the game-name (title) text field. -/
def gameNameCapacity : Nat := 255

/-- Size in bytes of the serialized `InputRecordingFileHeader` struct:
one version byte followed by the three fixed-capacity text fields
(`char` arrays, so no padding). -/
def headerStructSize : Nat := 1 + emuCapacity + authorCapacity + gameNameCapacity

/-- Modelled from the spec's file layout: `totalFrames` is the 4-byte field
directly after the header struct. -/
def seekpointTotalFrames : Nat := headerStructSize

/-- Modelled from the spec's file layout: `undoCount` is the 4-byte field
after `totalFrames`. -/
def seekpointUndoCount : Nat := headerStructSize + 4

/-- Modelled from the spec's file layout: the savestate flag is the single
byte after `undoCount`. -/
def seekpointSaveState : Nat := headerStructSize + 8

/-- Modelled from the spec: `headerSize` in the companion header is the
header struct plus the two 4-byte counters (the frame records start at
`headerSize + sizeof(bool)`). -/
def headerSize : Nat := headerStructSize + 8

/-- Total size of the fixed-order header block read back by
`verifyRecordingFileHeader`: struct + 4 + 4 + 1. -/
def headerBlockTotal : Nat := headerStructSize + 9

/-! ## Byte-level file primitives -/

/-- Positioned single-byte write: `fseek(pos)` then `fwrite` of one byte.
Writing past the end extends the file, zero-filling the gap. -/
def writeByteAt (f : List Nat) (pos : Nat) (b : Nat) : List Nat :=
  (f ++ List.replicate (pos + 1 - f.length) 0).set pos b

/-- Positioned multi-byte write: successive single-byte writes starting
at `pos` (what one `fwrite(ptr, n, 1, file)` does, byte by byte). -/
def writeBytesAt (f : List Nat) (pos : Nat) : List Nat → List Nat
  | [] => f
  | b :: bs => writeBytesAt (writeByteAt f pos b) (pos + 1) bs

/-- Positioned read of up to `n` bytes starting at `pos`: returns the bytes
actually available, the way `fread(ptr, 1, n, file)` delivers a possibly
short count at end of file. -/
def readBytesAt (f : List Nat) (pos n : Nat) : List Nat :=
  (f.drop pos).take n

/-- Little-endian 4-byte encoding of a natural number, as written by
`fwrite(&x, 4, 1, file)` on a little-endian machine. -/
def le32 (v : Nat) : List Nat :=
  [v % 256, v / 256 % 256, v / 65536 % 256, v / 16777216 % 256]

/-- Little-endian 4-byte encoding of a (signed) `long` value: its low
32 bits, two's complement. -/
def le32i (v : Int) : List Nat := le32 (v.emod 4294967296).toNat

/-- Decode 4 little-endian bytes back to a natural number, as `fread` into a
zeroed integer yields on a little-endian machine. -/
def de32 (bs : List Nat) : Nat :=
  bs.getD 0 0 + 256 * bs.getD 1 0 + 65536 * bs.getD 2 0 + 16777216 * bs.getD 3 0

/-! ## The header struct (`InputRecordingFileHeader`)

Fields hold raw bytes of the corresponding `char` arrays; `version` is the
`u8 version` field. -/

structure InputRecordingFileHeader where
  version : Nat
  emu : List Nat
  author : List Nat
  gameName : List Nat
deriving DecidableEq

/-- `InputRecordingFileHeader::Init`: `memset`s the `author` and `gameName`
arrays to zero. The `version` and `emu` fields are not touched. -/
def InputRecordingFileHeader.Init (h : InputRecordingFileHeader) : InputRecordingFileHeader :=
  { h with
    author := List.replicate authorCapacity 0
    gameName := List.replicate gameNameCapacity 0 }

/-- `strcpy_safe<charCount>`: `strncpy(output, pSrc, charCount)` followed by
`output[charCount - 1] = 0`. `pSrc` is the source C string's bytes up to
(and excluding) its null terminator; `strncpy` copies at most `charCount` of
them and zero-fills the remainder of the buffer when the source is shorter. -/
def strcpy_safe (charCount : Nat) (pSrc : List Nat) : List Nat :=
  (pSrc.take charCount ++ List.replicate (charCount - pSrc.length) 0).set (charCount - 1) 0

/-- `InputRecordingFileHeader::SetEmulatorVersion(wxString)`. -/
def InputRecordingFileHeader.SetEmulatorVersion (h : InputRecordingFileHeader)
    (version : List Nat) : InputRecordingFileHeader :=
  { h with emu := strcpy_safe emuCapacity version }

/-- `InputRecordingFileHeader::SetAuthor`. -/
def InputRecordingFileHeader.SetAuthor (h : InputRecordingFileHeader)
    (a : List Nat) : InputRecordingFileHeader :=
  { h with author := strcpy_safe authorCapacity a }

/-- `InputRecordingFileHeader::SetGameName`. -/
def InputRecordingFileHeader.SetGameName (h : InputRecordingFileHeader)
    (g : List Nat) : InputRecordingFileHeader :=
  { h with gameName := strcpy_safe gameNameCapacity g }

/-! ## The store (`InputRecordingFile`)

`recordingFile` is `none` for a null `FILE*`, `some f` for an open handle on
contents `f`. The `savestate` member struct holds a single `bool
fromSavestate`, modelled directly as `fromSavestate`. `totalFrames` is a
(signed) `long`, `undoCount` an `unsigned long`; the model keeps them as
`Int`/`Nat` — the 4-byte truncation happens, as in the code, at the point
where they are written to or read from the file. In-memory I/O in this model
cannot spuriously fail (no disk-full); the failure modes represented are a
closed store, a missing file on open, and reads past end of file. -/

structure InputRecordingFile where
  recordingFile : Option (List Nat)
  filename : String
  totalFrames : Int
  undoCount : Nat
  header : InputRecordingFileHeader
  fromSavestate : Bool
deriving DecidableEq

namespace InputRecordingFile

/-- `InputRecordingFile::IsFileOpen`. -/
def IsFileOpen (s : InputRecordingFile) : Bool :=
  s.recordingFile.isSome

/-- `InputRecordingFile::Close`: returns `false` (and does nothing) when
already closed, otherwise releases the handle and clears the path. -/
def Close (s : InputRecordingFile) : InputRecordingFile × Bool :=
  match s.recordingFile with
  | none => (s, false)
  | some _ => ({ s with recordingFile := none, filename := "" }, true)

/-- `InputRecordingFile::getRecordingBlockSeekPoint`:
`headerSize + sizeof(bool) + frame * inputBytesPerFrame`. -/
def getRecordingBlockSeekPoint (frame : Nat) : Nat :=
  headerSize + 1 + frame * inputBytesPerFrame

/-- `InputRecordingFile::IncrementUndoCount`: increments the in-memory
counter, then — only if the file is open — seeks to `seekpointUndoCount`
and `fwrite`s 4 bytes of the counter. -/
def IncrementUndoCount (s : InputRecordingFile) : InputRecordingFile :=
  let u := s.undoCount + 1
  match s.recordingFile with
  | none => { s with undoCount := u }
  | some f =>
    { s with
      undoCount := u
      recordingFile := some (writeBytesAt f seekpointUndoCount (le32 u)) }

/-- `InputRecordingFile::SetTotalFrames`: no-op when the store is closed or
`totalFrames >= frame`; otherwise updates the counter and `fwrite`s its low
4 bytes at `seekpointTotalFrames`. -/
def SetTotalFrames (s : InputRecordingFile) (frame : Int) : InputRecordingFile :=
  match s.recordingFile with
  | none => s
  | some f =>
    if s.totalFrames ≥ frame then s
    else
      { s with
        totalFrames := frame
        recordingFile := some (writeBytesAt f seekpointTotalFrames (le32i frame)) }

/-- `InputRecordingFile::ReadKeyBuffer`: positioned single-byte read at
`getRecordingBlockSeekPoint(frame) + controllerInputBytes * port + bufIndex`;
fails (`none`) when the store is closed or the position is past end of
file. -/
def ReadKeyBuffer (s : InputRecordingFile) (frame port bufIndex : Nat) : Option Nat :=
  match s.recordingFile with
  | none => none
  | some f =>
    f[getRecordingBlockSeekPoint frame + controllerInputBytes * port + bufIndex]?

/-- `InputRecordingFile::WriteKeyBuffer`: positioned single-byte write at
`getRecordingBlockSeekPoint(frame) + 18 * port + bufIndex` (the per-port
stride is the literal `18` in the source), then flush. `buf` is a `u8`,
hence the `% 256`. -/
def WriteKeyBuffer (s : InputRecordingFile) (frame port bufIndex buf : Nat) :
    InputRecordingFile × Bool :=
  match s.recordingFile with
  | none => (s, false)
  | some f =>
    let seek := getRecordingBlockSeekPoint frame + 18 * port + bufIndex
    ({ s with recordingFile := some (writeByteAt f seek (buf % 256)) }, true)

/-- The loop body of `InputRecordingFile::BulkReadPadData`: for `n` frames
starting at `frame`, seek to the frame's per-port block and `fread` up to
`controllerInputBytes` bytes; when `fread` returns a nonzero count the frame
is inserted into the map. The `padBytes` array cells beyond the bytes
actually read are indeterminate in the C code (`UpdateControllerData` is
still called on all of them); the model fills them with zeros — no claim
depends on their values. -/
def bulkLoop (f : List Nat) (port : Nat) : Int → Nat → List (Int × List Nat)
  | _, 0 => []
  | frame, n + 1 =>
    let seek := getRecordingBlockSeekPoint frame.toNat + controllerInputBytes * port
    let bytes := readBytesAt f seek controllerInputBytes
    let rest := bulkLoop f port (frame + 1) n
    if bytes.length ≠ 0 then
      (frame, bytes ++ List.replicate (controllerInputBytes - bytes.length) 0) :: rest
    else rest

/-- `InputRecordingFile::BulkReadPadData`: empty map when the store is
closed; otherwise clamps `frameStart` to zero and iterates the half-open
frame range (the `std::map` is modelled as an association list in increasing
frame order). -/
def BulkReadPadData (s : InputRecordingFile) (frameStart frameEnd : Int)
    (port : Nat) : List (Int × List Nat) :=
  match s.recordingFile with
  | none => []
  | some f =>
    let fs := if frameStart < 0 then 0 else frameStart
    bulkLoop f port fs (frameEnd - fs).toNat

/-- Serialized form of the header struct, as laid down by
`fwrite(&header, sizeof(InputRecordingFileHeader), 1, file)`: the version
byte followed by the three `char` arrays (each padded/truncated to its
declared capacity, matching the in-memory array layout). -/
def encodeHeader (h : InputRecordingFileHeader) : List Nat :=
  h.version % 256 ::
    ((h.emu.take emuCapacity ++ List.replicate (emuCapacity - h.emu.length) 0) ++
     ((h.author.take authorCapacity ++ List.replicate (authorCapacity - h.author.length) 0) ++
      (h.gameName.take gameNameCapacity ++ List.replicate (gameNameCapacity - h.gameName.length) 0)))

/-- The header struct as filled by
`fread(&header, sizeof(InputRecordingFileHeader), 1, file)` from the start
of file `f`. -/
def decodeHeader (f : List Nat) : InputRecordingFileHeader :=
  { version := (f[0]?).getD 0
    emu := readBytesAt f 1 emuCapacity
    author := readBytesAt f (1 + emuCapacity) authorCapacity
    gameName := readBytesAt f (1 + emuCapacity + authorCapacity) gameNameCapacity }

/-- `InputRecordingFile::WriteHeader`: `rewind`, then write the header
struct, 4 bytes of `totalFrames`, 4 bytes of `undoCount` and 1 byte of the
savestate flag, in that order, and flush. -/
def WriteHeader (s : InputRecordingFile) : InputRecordingFile × Bool :=
  match s.recordingFile with
  | none => (s, false)
  | some f =>
    let f1 := writeBytesAt f 0 (encodeHeader s.header)
    let f2 := writeBytesAt f1 seekpointTotalFrames (le32i s.totalFrames)
    let f3 := writeBytesAt f2 seekpointUndoCount (le32 s.undoCount)
    let f4 := writeByteAt f3 seekpointSaveState (if s.fromSavestate then 1 else 0)
    ({ s with recordingFile := some f4 }, true)

/-- `InputRecordingFile::verifyRecordingFileHeader`: `rewind`, `fread` the
header struct, 4 bytes of `totalFrames`, 4 bytes of `undoCount` and the
savestate flag, in that order — each `fread` fails iff the file is too short
for it, so the four reads succeed iff `headerBlockTotal` bytes are
available — then reject any `version != 1`. On a short file the C code
leaves the destination objects partially filled with whatever bytes were
available; the model leaves them unchanged (no claim depends on their
values in that case, and the caller closes the store). -/
def verifyRecordingFileHeader (s : InputRecordingFile) : InputRecordingFile × Bool :=
  match s.recordingFile with
  | none => (s, false)
  | some f =>
    if f.length < headerBlockTotal then (s, false)
    else
      let h := decodeHeader f
      let s1 :=
        { s with
          header := h
          totalFrames := (de32 (readBytesAt f seekpointTotalFrames 4) : Int)
          undoCount := de32 (readBytesAt f seekpointUndoCount 4)
          fromSavestate := (f[seekpointSaveState]?).getD 0 != 0 }
      if h.version ≠ 1 then (s1, false) else (s1, true)

/-- `InputRecordingFile::open(path, newRecording)`. The result of the
`wxFopen` call is an explicit parameter: `none` when the OS cannot open the
path, `some f` a handle on contents `f`. In `newRecording` mode a
successful `"wb+"` open truncates the file to empty. Note the assignment
`recordingFile = wxFopen(...)` happens before the null check, so a failed
open overwrites the previous handle with null. -/
def openFile (s : InputRecordingFile) (path : String)
    (fopenResult : Option (List Nat)) (newRecording : Bool) :
    InputRecordingFile × Bool :=
  if newRecording then
    match fopenResult with
    | some _ =>
      ({ s with
          recordingFile := some []
          filename := path
          totalFrames := 0
          undoCount := 0
          header := s.header.Init }, true)
    | none => ({ s with recordingFile := none }, false)
  else
    match fopenResult with
    | some f =>
      let vr := verifyRecordingFileHeader { s with recordingFile := some f }
      if vr.2 then ({ vr.1 with filename := path }, true)
      else ((Close vr.1).1, false)
    | none => ({ s with recordingFile := none }, false)

/-- `InputRecordingFile::OpenNew`: `open(path, true)`, then on success
record the savestate flag. -/
def OpenNew (s : InputRecordingFile) (path : String)
    (fopenResult : Option (List Nat)) (fromSavestate : Bool) :
    InputRecordingFile × Bool :=
  let r := openFile s path fopenResult true
  if r.2 then ({ r.1 with fromSavestate := fromSavestate }, true)
  else (r.1, false)

/-- `InputRecordingFile::OpenExisting`: `open(path, false)`. -/
def OpenExisting (s : InputRecordingFile) (path : String)
    (fopenResult : Option (List Nat)) : InputRecordingFile × Bool :=
  openFile s path fopenResult false

/-- The full fixed-order header block as `WriteHeader` lays it down at the
start of the file. -/
def headerBlob (s : InputRecordingFile) : List Nat :=
  encodeHeader s.header ++
    (le32i s.totalFrames ++ (le32 s.undoCount ++ [if s.fromSavestate then 1 else 0]))

end InputRecordingFile

/-! ## Basic lemmas about the file primitives -/

theorem length_writeByteAt (f : List Nat) (pos b : Nat) :
    (writeByteAt f pos b).length = if pos < f.length then f.length else pos + 1 := by
  simp only [writeByteAt, List.length_set, List.length_append, List.length_replicate]
  split <;> omega

theorem getElem?_writeByteAt (f : List Nat) (pos b i : Nat) :
    (writeByteAt f pos b)[i]? =
      if i = pos then some b
      else if i < f.length then f[i]?
      else if i < pos then some 0 else none := by
  unfold writeByteAt
  rw [List.getElem?_set]
  by_cases h : i = pos
  · subst h
    rw [if_pos rfl, if_pos (by simp; omega), if_pos rfl]
  · rw [if_neg (fun he => h he.symm), if_neg h]
    by_cases hif : i < f.length
    · rw [List.getElem?_append_left hif, if_pos hif]
    · rw [if_neg hif, List.getElem?_append_right (by omega), List.getElem?_replicate]
      by_cases hip : i < pos
      · rw [if_pos (by omega), if_pos hip]
      · rw [if_neg (by omega), if_neg hip]

theorem length_writeBytesAt (f : List Nat) (pos : Nat) (bs : List Nat) :
    (writeBytesAt f pos bs).length =
      if 0 < bs.length ∧ f.length < pos + bs.length then pos + bs.length
      else f.length := by
  induction bs generalizing f pos with
  | nil => simp [writeBytesAt]
  | cons b bs ih =>
    simp only [writeBytesAt, ih, length_writeByteAt, List.length_cons]
    split_ifs <;> omega

theorem getElem?_writeBytesAt (f : List Nat) (pos : Nat) (bs : List Nat) (i : Nat) :
    (writeBytesAt f pos bs)[i]? =
      if pos ≤ i ∧ i < pos + bs.length then bs[i - pos]?
      else if i < f.length then f[i]?
      else if i < pos ∧ 0 < bs.length then some 0 else none := by
  induction bs generalizing f pos with
  | nil =>
    simp only [writeBytesAt, List.length_nil]
    split_ifs <;>
      first
        | rfl
        | omega
        | exact List.getElem?_eq_none (by omega)
  | cons b bs ih =>
    simp only [writeBytesAt, List.length_cons]
    rw [ih, getElem?_writeByteAt, length_writeByteAt]
    split_ifs <;>
      first
        | rfl
        | omega
        | exact List.getElem?_eq_none (by omega)
        | exact (List.getElem?_eq_none (by omega)).symm
        | (have h0 : i - pos = 0 := by omega
           rw [h0, List.getElem?_cons_zero])
        | (have hs : i - pos = (i - (pos + 1)) + 1 := by omega
           rw [hs, List.getElem?_cons_succ])

theorem readBytesAt_getElem? (f : List Nat) (pos n i : Nat) :
    (readBytesAt f pos n)[i]? = if i < n then f[pos + i]? else none := by
  unfold readBytesAt
  rw [List.getElem?_take]
  split
  · rw [List.getElem?_drop]
  · rfl

/-- Reading back exactly the bytes just written. -/
theorem readBytesAt_writeBytesAt (f : List Nat) (pos : Nat) (bs : List Nat) :
    readBytesAt (writeBytesAt f pos bs) pos bs.length = bs := by
  apply List.ext_getElem?
  intro i
  rw [readBytesAt_getElem?]
  split
  · rename_i hi
    rw [getElem?_writeBytesAt]
    rw [if_pos (by omega)]
    congr 1
    omega
  · rename_i hi
    rw [List.getElem?_eq_none_iff.2 (by omega)]

theorem de32_le32 (v : Nat) : de32 (le32 v) = v % 4294967296 := by
  simp [de32, le32, List.getD]
  omega

/-! ## Lemmas about the store operations -/


theorem writeBytesAt_append (f : List Nat) (pos : Nat) (as bs : List Nat) :
    writeBytesAt f pos (as ++ bs) =
      writeBytesAt (writeBytesAt f pos as) (pos + as.length) bs := by
  induction as generalizing f pos with
  | nil => simp [writeBytesAt]
  | cons a as ih =>
    simp only [List.cons_append, writeBytesAt, List.length_cons, List.append_eq]
    rw [ih]
    congr 1
    omega

theorem writeBytesAt_singleton (f : List Nat) (pos b : Nat) :
    writeBytesAt f pos [b] = writeByteAt f pos b := rfl

theorem readBytesAt_length (f : List Nat) (pos n : Nat) :
    (readBytesAt f pos n).length = min n (f.length - pos) := by
  simp [readBytesAt]

theorem readBytesAt_length_ne_zero (f : List Nat) (pos n : Nat) :
    (readBytesAt f pos n).length ≠ 0 ↔ 0 < n ∧ pos < f.length := by
  rw [readBytesAt_length]
  omega

/-- `strcpy_safe` produces exactly `charCount` bytes, forces the last to
zero, copies the truncated source into the leading positions and zero-fills
the rest. -/
theorem strcpy_safe_spec (charCount : Nat) (src : List Nat) (hcap : 0 < charCount) :
    (strcpy_safe charCount src).length = charCount ∧
    (strcpy_safe charCount src)[charCount - 1]? = some 0 ∧
    (∀ i, i < charCount - 1 →
      (strcpy_safe charCount src)[i]? = if i < src.length then src[i]? else some 0) := by
  unfold strcpy_safe
  have hlen : (src.take charCount ++ List.replicate (charCount - src.length) 0).length
      = charCount := by
    simp
    omega
  refine ⟨by simp [hlen], ?_, ?_⟩
  · rw [List.getElem?_set]
    rw [if_pos rfl, if_pos (by omega)]
  · intro i hi
    rw [List.getElem?_set, if_neg (by omega)]
    by_cases hsrc : i < src.length
    · rw [if_pos hsrc, List.getElem?_append_left (by simp; omega), List.getElem?_take]
      rw [if_pos (by omega)]
    · rw [if_neg hsrc, List.getElem?_append_right (by simp; omega), List.getElem?_replicate]
      rw [if_pos (by simp; omega)]

namespace InputRecordingFile

theorem encodeHeader_length (h : InputRecordingFileHeader) :
    (encodeHeader h).length = headerStructSize := by
  simp [encodeHeader, headerStructSize, emuCapacity, authorCapacity, gameNameCapacity]
  omega

theorem bulkLoop_length_le (f : List Nat) (port : Nat) (start : Int) (n : Nat) :
    (bulkLoop f port start n).length ≤ n := by
  induction n generalizing start with
  | zero => simp [bulkLoop]
  | succ n ih =>
    simp only [bulkLoop]
    split
    · simpa using Nat.succ_le_succ (ih (start + 1))
    · exact Nat.le_succ_of_le (ih (start + 1))

theorem mem_bulkLoop (f : List Nat) (port : Nat) (start : Int) (n : Nat) (frame : Int) :
    (∃ blk, (frame, blk) ∈ bulkLoop f port start n) ↔
      (start ≤ frame ∧ frame < start + n ∧
       getRecordingBlockSeekPoint frame.toNat + controllerInputBytes * port < f.length) := by
  induction n generalizing start with
  | zero =>
    simp only [bulkLoop, List.not_mem_nil, exists_false, false_iff]
    omega
  | succ n ih =>
    simp only [bulkLoop]
    by_cases hc :
        (readBytesAt f (getRecordingBlockSeekPoint start.toNat + controllerInputBytes * port)
          controllerInputBytes).length ≠ 0
    · rw [if_pos hc]
      rw [readBytesAt_length_ne_zero] at hc
      constructor
      · rintro ⟨blk, hblk⟩
        rcases List.mem_cons.1 hblk with heq | hmem
        · have h1 : frame = start := congrArg Prod.fst heq
          subst h1
          exact ⟨le_refl _, by omega, hc.2⟩
        · have := (ih (start + 1)).1 ⟨blk, hmem⟩
          exact ⟨by omega, by omega, this.2.2⟩
      · rintro ⟨h1, h2, h3⟩
        by_cases hfs : frame = start
        · subst hfs
          exact ⟨_, List.mem_cons_self _ _⟩
        · obtain ⟨blk, hblk⟩ := (ih (start + 1)).2 ⟨by omega, by omega, h3⟩
          exact ⟨blk, List.mem_cons_of_mem _ hblk⟩
    · rw [if_neg hc]
      rw [readBytesAt_length_ne_zero] at hc
      push_neg at hc
      rw [ih (start + 1)]
      constructor
      · rintro ⟨h1, h2, h3⟩
        exact ⟨by omega, by omega, h3⟩
      · rintro ⟨h1, h2, h3⟩
        refine ⟨?_, by omega, h3⟩
        by_cases hfs : frame = start
        · subst hfs
          exact absurd h3 (by have := hc (by simp [controllerInputBytes]); omega)
        · omega

theorem mem_bulkLoop_bounds (f : List Nat) (port : Nat) (start : Int) (n : Nat)
    (p : Int × List Nat) (hp : p ∈ bulkLoop f port start n) :
    start ≤ p.1 ∧ p.1 < start + n := by
  have := (mem_bulkLoop f port start n p.1).1 ⟨p.2, hp⟩
  exact ⟨this.1, this.2.1⟩


end InputRecordingFile

theorem getElem?_writeBytesAt_zero (f bs : List Nat) (i : Nat) (h : i < bs.length) :
    (writeBytesAt f 0 bs)[i]? = bs[i]? := by
  rw [getElem?_writeBytesAt, if_pos (by omega)]
  simp

theorem readBytesAt_writeBytesAt_zero (f bs : List Nat) (p n : Nat)
    (h : p + n ≤ bs.length) :
    readBytesAt (writeBytesAt f 0 bs) p n = readBytesAt bs p n := by
  apply List.ext_getElem?
  intro i
  rw [readBytesAt_getElem?, readBytesAt_getElem?]
  by_cases hi : i < n
  · rw [if_pos hi, if_pos hi]
    exact getElem?_writeBytesAt_zero _ _ _ (by omega)
  · rw [if_neg hi, if_neg hi]

theorem readBytesAt_append_left (l₁ l₂ : List Nat) (p n : Nat)
    (h : p + n ≤ l₁.length) :
    readBytesAt (l₁ ++ l₂) p n = readBytesAt l₁ p n := by
  apply List.ext_getElem?
  intro i
  rw [readBytesAt_getElem?, readBytesAt_getElem?]
  by_cases hi : i < n
  · rw [if_pos hi, if_pos hi]
    exact List.getElem?_append_left (by omega)
  · rw [if_neg hi, if_neg hi]

namespace InputRecordingFile


theorem headerBlob_length (s : InputRecordingFile) :
    (headerBlob s).length = headerBlockTotal := by
  simp [headerBlob, encodeHeader_length, le32i, le32, headerBlockTotal]

theorem WriteHeader_file (s : InputRecordingFile) (f : List Nat)
    (h : s.recordingFile = some f) :
    (WriteHeader s).1.recordingFile = some (writeBytesAt f 0 (headerBlob s)) ∧
    (WriteHeader s).2 = true := by
  have h4 : (le32i s.totalFrames).length = 4 := rfl
  have h4' : (le32 s.undoCount).length = 4 := rfl
  constructor
  · simp only [WriteHeader, h, headerBlob]
    rw [writeBytesAt_append, writeBytesAt_append, writeBytesAt_append,
      writeBytesAt_singleton, encodeHeader_length, h4, h4']
    simp [seekpointTotalFrames, seekpointUndoCount, seekpointSaveState]
  · simp [WriteHeader, h]

theorem headerBlob_reads (s : InputRecordingFile) :
    (headerBlob s)[0]? = some (s.header.version % 256) ∧
    readBytesAt (headerBlob s) seekpointTotalFrames 4 = le32i s.totalFrames ∧
    readBytesAt (headerBlob s) seekpointUndoCount 4 = le32 s.undoCount ∧
    (headerBlob s)[seekpointSaveState]? = some (if s.fromSavestate then 1 else 0) := by
  have he : (encodeHeader s.header).length = headerStructSize := encodeHeader_length s.header
  have h4 : (le32i s.totalFrames).length = 4 := rfl
  have h4' : (le32 s.undoCount).length = 4 := rfl
  refine ⟨?_, ?_, ?_, ?_⟩
  · have hss : headerStructSize = 561 := rfl
    rw [headerBlob, List.getElem?_append_left (by omega), encodeHeader,
      List.getElem?_cons_zero]
  · rw [headerBlob, readBytesAt, List.drop_left' (show (encodeHeader s.header).length = seekpointTotalFrames from he), List.take_left' h4]
  · have hassoc : headerBlob s =
        (encodeHeader s.header ++ le32i s.totalFrames) ++
          (le32 s.undoCount ++ [if s.fromSavestate then 1 else 0]) := by
      simp [headerBlob]
    rw [hassoc, readBytesAt,
      List.drop_left' (by rw [List.length_append, he, h4]; rfl : (encodeHeader s.header ++ le32i s.totalFrames).length = seekpointUndoCount),
      List.take_left' h4']
  · have hassoc : headerBlob s =
        (encodeHeader s.header ++ le32i s.totalFrames ++ le32 s.undoCount) ++
          [if s.fromSavestate then 1 else 0] := by
      simp [headerBlob]
    have hl : (encodeHeader s.header ++ le32i s.totalFrames ++ le32 s.undoCount).length
        = seekpointSaveState := by
      rw [List.length_append, List.length_append, he, h4, h4']
      show headerStructSize + 4 + 4 = headerStructSize + 8
      omega
    rw [hassoc, List.getElem?_append_right (by omega), hl]
    simp [seekpointSaveState]

end InputRecordingFile

theorem de32_le32i (v : Int) : de32 (le32i v) = (v.emod 4294967296).toNat := by
  rw [le32i, de32_le32]
  have h1 : 0 ≤ v.emod 4294967296 := Int.emod_nonneg _ (by norm_num)
  have h2 : v.emod 4294967296 < 4294967296 := Int.emod_lt_of_pos _ (by norm_num)
  omega

namespace InputRecordingFile

/-- What `verifyRecordingFileHeader` loads from a file that `WriteHeader`
produced (reading the block back in the same fixed order): the counters come
back reduced modulo 2^32, the savestate flag and header bytes verbatim, and
the verification outcome is decided by the stored version byte. -/
theorem verify_loads (s t : InputRecordingFile) (f : List Nat)
    (ht : t.recordingFile = some (writeBytesAt f 0 (headerBlob s))) :
    (verifyRecordingFileHeader t).1.totalFrames = s.totalFrames.emod 4294967296 ∧
    (verifyRecordingFileHeader t).1.undoCount = s.undoCount % 4294967296 ∧
    (verifyRecordingFileHeader t).1.fromSavestate = s.fromSavestate ∧
    (verifyRecordingFileHeader t).1.header
        = decodeHeader (writeBytesAt f 0 (headerBlob s)) ∧
    ((verifyRecordingFileHeader t).2 = true ↔ s.header.version % 256 = 1) ∧
    (verifyRecordingFileHeader t).1.recordingFile = t.recordingFile ∧
    (verifyRecordingFileHeader t).1.filename = t.filename := by
  have hbt : headerBlockTotal = 570 := rfl
  have h561 : seekpointTotalFrames = 561 := rfl
  have h565 : seekpointUndoCount = 565 := rfl
  have h569 : seekpointSaveState = 569 := rfl
  have hbl : (headerBlob s).length = headerBlockTotal := headerBlob_length s
  have hlen : ¬ ((writeBytesAt f 0 (headerBlob s)).length < headerBlockTotal) := by
    rw [length_writeBytesAt]
    split_ifs <;> omega
  obtain ⟨hr0, hrT, hrU, hrS⟩ := headerBlob_reads s
  have hTF : readBytesAt (writeBytesAt f 0 (headerBlob s)) seekpointTotalFrames 4
      = le32i s.totalFrames := by
    rw [readBytesAt_writeBytesAt_zero _ _ _ _ (by omega), hrT]
  have hUC : readBytesAt (writeBytesAt f 0 (headerBlob s)) seekpointUndoCount 4
      = le32 s.undoCount := by
    rw [readBytesAt_writeBytesAt_zero _ _ _ _ (by omega), hrU]
  have hSS : (writeBytesAt f 0 (headerBlob s))[seekpointSaveState]?
      = some (if s.fromSavestate then 1 else 0) := by
    rw [getElem?_writeBytesAt_zero _ _ _ (by omega), hrS]
  have hV : (decodeHeader (writeBytesAt f 0 (headerBlob s))).version
      = s.header.version % 256 := by
    show ((writeBytesAt f 0 (headerBlob s))[0]?).getD 0 = _
    rw [getElem?_writeBytesAt_zero _ _ _ (by omega), hr0]
    rfl
  simp only [verifyRecordingFileHeader, ht, if_neg hlen, hTF, hUC, hSS, hV]
  simp only [apply_ite Prod.fst, apply_ite Prod.snd, ite_self]
  refine ⟨?_, ?_, ?_, ?_, ?_, ?_, ?_⟩ <;> try trivial
  · rw [de32_le32i]
    have h1 : 0 ≤ s.totalFrames.emod 4294967296 := Int.emod_nonneg _ (by norm_num)
    omega
  · rw [de32_le32]
  · cases s.fromSavestate <;> rfl
  · by_cases hv : s.header.version % 256 = 1 <;> simp [hv]

end InputRecordingFile

theorem InputRecordingFileHeader.ext_fields (x y : InputRecordingFileHeader)
    (h1 : x.version = y.version) (h2 : x.emu = y.emu)
    (h3 : x.author = y.author) (h4 : x.gameName = y.gameName) : x = y := by
  cases x
  cases y
  simp_all

namespace InputRecordingFile

theorem encodeHeader_of_lengths (h : InputRecordingFileHeader)
    (hv : h.version < 256)
    (he : h.emu.length = emuCapacity) (ha : h.author.length = authorCapacity)
    (hg : h.gameName.length = gameNameCapacity) :
    encodeHeader h = h.version :: (h.emu ++ (h.author ++ h.gameName)) := by
  rw [encodeHeader, Nat.mod_eq_of_lt hv,
    List.take_of_length_le (le_of_eq he), List.take_of_length_le (le_of_eq ha),
    List.take_of_length_le (le_of_eq hg), he, ha, hg]
  simp

/-- `fread`ing the header struct back from a file `WriteHeader` produced
recovers the header exactly, field by field, when the in-memory field
lengths match their declared capacities. -/
theorem decodeHeader_writeHeader (s : InputRecordingFile) (f : List Nat)
    (hv : s.header.version < 256)
    (he : s.header.emu.length = emuCapacity)
    (ha : s.header.author.length = authorCapacity)
    (hg : s.header.gameName.length = gameNameCapacity) :
    decodeHeader (writeBytesAt f 0 (headerBlob s)) = s.header := by
  have hbt : headerBlockTotal = 570 := rfl
  have hbl : (headerBlob s).length = headerBlockTotal := headerBlob_length s
  have hel : (encodeHeader s.header).length = headerStructSize :=
    encodeHeader_length s.header
  have hss : headerStructSize = 561 := rfl
  have hcapE : emuCapacity = 50 := rfl
  have hcapA : authorCapacity = 255 := rfl
  have hcapG : gameNameCapacity = 255 := rfl
  have hEnc := encodeHeader_of_lengths s.header hv he ha hg
  have hblob : ∀ p n, p + n ≤ headerStructSize →
      readBytesAt (writeBytesAt f 0 (headerBlob s)) p n
        = readBytesAt (encodeHeader s.header) p n := by
    intro p n hpn
    rw [readBytesAt_writeBytesAt_zero _ _ _ _ (by omega), headerBlob,
      readBytesAt_append_left _ _ _ _ (by omega)]
  apply InputRecordingFileHeader.ext_fields
  · show ((writeBytesAt f 0 (headerBlob s))[0]?).getD 0 = s.header.version
    rw [getElem?_writeBytesAt_zero _ _ _ (by omega), (headerBlob_reads s).1]
    show s.header.version % 256 = s.header.version
    exact Nat.mod_eq_of_lt hv
  · show readBytesAt (writeBytesAt f 0 (headerBlob s)) 1 emuCapacity = s.header.emu
    rw [hblob 1 emuCapacity (by omega), hEnc, readBytesAt, List.drop_succ_cons,
      List.drop_zero, List.take_left' he]
  · show readBytesAt (writeBytesAt f 0 (headerBlob s)) (1 + emuCapacity) authorCapacity
      = s.header.author
    rw [hblob (1 + emuCapacity) authorCapacity (by omega), hEnc, readBytesAt,
      show 1 + emuCapacity = emuCapacity + 1 from by omega, List.drop_succ_cons,
      List.drop_left' he, List.take_left' ha]
  · show readBytesAt (writeBytesAt f 0 (headerBlob s))
        (1 + emuCapacity + authorCapacity) gameNameCapacity = s.header.gameName
    rw [hblob (1 + emuCapacity + authorCapacity) gameNameCapacity (by omega), hEnc,
      readBytesAt,
      show 1 + emuCapacity + authorCapacity = (emuCapacity + authorCapacity) + 1 from by omega,
      List.drop_succ_cons, ← List.append_assoc,
      List.drop_left' (by rw [List.length_append, he, ha]),
      List.take_of_length_le (le_of_eq hg)]

end InputRecordingFile

/-! ## Claim theorems -/

open InputRecordingFile

/-- **C1.** On an open store, a byte written via `WriteKeyBuffer` at a
(frame, port, byteIndex) triple and then read via `ReadKeyBuffer` at the
same triple returns the same value; the write-side offset
(`getRecordingBlockSeekPoint frame + 18 * port + bufIndex`) and the
read-side offset (`getRecordingBlockSeekPoint frame +
controllerInputBytes * port + bufIndex`) agree for every triple, both
equalling `frameRecordOffset(frame) + port * controllerInputBytes +
byteIndex`. -/
theorem C1_write_read_roundtrip (s : InputRecordingFile) (f : List Nat)
    (frame port bufIndex buf : Nat)
    (hopen : s.recordingFile = some f) (hbuf : buf < 256) :
    ReadKeyBuffer (WriteKeyBuffer s frame port bufIndex buf).1 frame port bufIndex
      = some buf ∧
    (WriteKeyBuffer s frame port bufIndex buf).2 = true ∧
    getRecordingBlockSeekPoint frame + 18 * port + bufIndex
      = getRecordingBlockSeekPoint frame + port * controllerInputBytes + bufIndex := by
  have hc : controllerInputBytes = 18 := rfl
  refine ⟨?_, ?_, ?_⟩
  · simp only [WriteKeyBuffer, hopen, ReadKeyBuffer]
    rw [getElem?_writeByteAt, if_pos (by rw [hc, Nat.mul_comm]), Nat.mod_eq_of_lt hbuf]
  · simp [WriteKeyBuffer, hopen]
  · rw [hc, Nat.mul_comm]

/-- **C1 witness**: concrete round trip at frame 2, port 1, byte 3. -/
theorem C1_write_read_roundtrip_witness :
    (⟨some [], "", 0, 0, ⟨1, [], [], []⟩, false⟩ :
        InputRecordingFile).recordingFile = some [] ∧
    (7 : Nat) < 256 ∧
    ReadKeyBuffer
      (WriteKeyBuffer ⟨some [], "", 0, 0, ⟨1, [], [], []⟩, false⟩ 2 1 3 7).1 2 1 3
      = some 7 :=
  ⟨rfl, by decide,
    (C1_write_read_roundtrip ⟨some [], "", 0, 0, ⟨1, [], [], []⟩, false⟩ []
      2 1 3 7 rfl (by decide)).1⟩

/-- **C4 counterexample.** `Init` does **not** zero every field: a header
whose emulator-identity field is nonempty keeps it unchanged across
`Init()`, so previously loaded identity information survives, contrary to
the claim. -/
theorem C4_init_keeps_emulator_identity :
    ((⟨1, [65, 66, 67], [], []⟩ : InputRecordingFileHeader).Init).emu
        = [65, 66, 67] ∧
    ((⟨1, [65, 66, 67], [], []⟩ : InputRecordingFileHeader).Init).emu
        ≠ List.replicate emuCapacity 0 := by
  exact ⟨rfl, by decide⟩

/-- **C4 (amended).** `Init` zero-fills exactly the author and game-name
fields (leaving them null-terminated zero blocks of their full capacity);
the emulator-identity field and the format-version field are left
unchanged. -/
theorem C4_init_zeroes_author_gameName (h : InputRecordingFileHeader) :
    (h.Init).author = List.replicate authorCapacity 0 ∧
    (h.Init).gameName = List.replicate gameNameCapacity 0 ∧
    (h.Init).emu = h.emu ∧
    (h.Init).version = h.version :=
  ⟨rfl, rfl, rfl, rfl⟩

/-- **C5 counterexample.** A failing `OpenNew` on a store that was
previously open does **not** leave the in-memory model unchanged: the
file-handle field is overwritten with the null handle by the
`recordingFile = wxFopen(...)` assignment. -/
theorem C5_open_new_failure_clobbers_handle :
    (OpenNew ⟨some [7], "old", 2, 3, ⟨1, [], [], []⟩, true⟩ "p" none false).2
        = false ∧
    (OpenNew ⟨some [7], "old", 2, 3, ⟨1, [], [], []⟩, true⟩ "p" none false).1.recordingFile
        ≠ (⟨some [7], "old", 2, 3, ⟨1, [], [], []⟩, true⟩ :
            InputRecordingFile).recordingFile := by
  exact ⟨rfl, by decide⟩

/-- **C5 (amended).** When `OpenNew` fails because the file cannot be
created, it returns failure and leaves the header, `totalFrames`,
`undoCount`, the savestate flag and the stored path unchanged; the
file-handle field, however, is overwritten with the null handle (so a
previously open store is left closed, its old handle leaked). -/
theorem C5_open_new_failure_effects (s : InputRecordingFile) (path : String)
    (sv : Bool) :
    OpenNew s path none sv = ({ s with recordingFile := none }, false) := rfl

/-- **C6.** `SetTotalFrames` is a one-directional ratchet: it is an exact
no-op (in memory and on disk) when the store is closed or the argument does
not strictly exceed the current value; otherwise it updates only
`totalFrames` and overwrites exactly the 4 bytes at
`seekpointTotalFrames` with the little-endian low 32 bits of the new
value, leaving every other byte of the file unchanged. -/
theorem C6_set_total_frames_ratchet (s : InputRecordingFile) (frame : Int) :
    (s.recordingFile = none → SetTotalFrames s frame = s) ∧
    (frame ≤ s.totalFrames → SetTotalFrames s frame = s) ∧
    (∀ f, s.recordingFile = some f → s.totalFrames < frame →
      headerBlockTotal ≤ f.length →
      ∃ f', SetTotalFrames s frame
            = { s with totalFrames := frame, recordingFile := some f' } ∧
        f'.length = f.length ∧
        readBytesAt f' seekpointTotalFrames 4 = le32i frame ∧
        (∀ i, i < f.length →
          (i < seekpointTotalFrames ∨ seekpointTotalFrames + 4 ≤ i) →
          f'[i]? = f[i]?)) := by
  have h4 : (le32i frame).length = 4 := rfl
  have h561 : seekpointTotalFrames = 561 := rfl
  have h570 : headerBlockTotal = 570 := rfl
  refine ⟨?_, ?_, ?_⟩
  · intro h
    simp [SetTotalFrames, h]
  · intro h
    cases hr : s.recordingFile with
    | none => simp [SetTotalFrames, hr]
    | some f =>
      simp only [SetTotalFrames, hr]
      rw [if_pos (by omega)]
  · intro f hf hlt hlen
    refine ⟨writeBytesAt f seekpointTotalFrames (le32i frame), ?_, ?_, ?_, ?_⟩
    · simp only [SetTotalFrames, hf]
      rw [if_neg (by omega)]
    · rw [length_writeBytesAt]
      split_ifs <;> omega
    · exact readBytesAt_writeBytesAt f seekpointTotalFrames (le32i frame)
    · intro i hi hrange
      rw [getElem?_writeBytesAt]
      rcases hrange with hb | hb
      · rw [if_neg (by omega), if_pos hi]
      · rw [if_neg (by omega), if_pos hi]

set_option maxRecDepth 4000 in
/-- **C6 witness**: concrete ratchet step from 0 to 1 on a 570-byte file. -/
theorem C6_set_total_frames_witness :
    (⟨some (List.replicate 570 0), "p", 0, 0, ⟨1, [], [], []⟩, false⟩ :
        InputRecordingFile).recordingFile = some (List.replicate 570 0) ∧
    ((⟨some (List.replicate 570 0), "p", 0, 0, ⟨1, [], [], []⟩, false⟩ :
        InputRecordingFile).totalFrames < (1 : Int)) ∧
    headerBlockTotal ≤ (List.replicate 570 (0 : Nat)).length ∧
    (SetTotalFrames
      ⟨some (List.replicate 570 0), "p", 0, 0, ⟨1, [], [], []⟩, false⟩
      1).totalFrames = 1 := by
  refine ⟨rfl, by decide, by decide, ?_⟩
  obtain ⟨f', hf', -⟩ :=
    (C6_set_total_frames_ratchet
      ⟨some (List.replicate 570 0), "p", 0, 0, ⟨1, [], [], []⟩, false⟩ 1).2.2
      (List.replicate 570 0) rfl (by decide) (by decide)
  rw [hf']

/-- **C7.** The three text setters copy any source string into their
fixed-capacity field: the field always has exactly its capacity, its last
byte is forced to zero (null-termination within capacity, hence no
overflow), the leading bytes are the truncated copy of the source, and
positions beyond a short source are zero-filled. -/
theorem C7_text_setters_safe (h : InputRecordingFileHeader) (src : List Nat) :
    ((h.SetAuthor src).author.length = authorCapacity ∧
      (h.SetAuthor src).author[authorCapacity - 1]? = some 0 ∧
      (∀ i, i < authorCapacity - 1 →
        (h.SetAuthor src).author[i]? =
          if i < src.length then src[i]? else some 0)) ∧
    ((h.SetGameName src).gameName.length = gameNameCapacity ∧
      (h.SetGameName src).gameName[gameNameCapacity - 1]? = some 0 ∧
      (∀ i, i < gameNameCapacity - 1 →
        (h.SetGameName src).gameName[i]? =
          if i < src.length then src[i]? else some 0)) ∧
    ((h.SetEmulatorVersion src).emu.length = emuCapacity ∧
      (h.SetEmulatorVersion src).emu[emuCapacity - 1]? = some 0 ∧
      (∀ i, i < emuCapacity - 1 →
        (h.SetEmulatorVersion src).emu[i]? =
          if i < src.length then src[i]? else some 0)) :=
  ⟨strcpy_safe_spec authorCapacity src (by decide),
   strcpy_safe_spec gameNameCapacity src (by decide),
   strcpy_safe_spec emuCapacity src (by decide)⟩

/-- **C7 witness**: a 300-byte source is truncated into the 255-byte author
field, null-terminated. -/
theorem C7_text_setters_witness :
    ((⟨1, [], [], []⟩ : InputRecordingFileHeader).SetAuthor
        (List.replicate 300 7)).author.length = authorCapacity ∧
    (10 : Nat) < authorCapacity - 1 ∧
    ((⟨1, [], [], []⟩ : InputRecordingFileHeader).SetAuthor
        (List.replicate 300 7)).author[10]? =
      (if 10 < (List.replicate 300 (7 : Nat)).length
        then (List.replicate 300 (7 : Nat))[10]? else some 0) :=
  ⟨(C7_text_setters_safe ⟨1, [], [], []⟩ (List.replicate 300 7)).1.1,
   by decide,
   (C7_text_setters_safe ⟨1, [], [], []⟩ (List.replicate 300 7)).1.2.2 10
     (by decide)⟩

/-- **C8.** `IncrementUndoCount` advances the in-memory counter by exactly
one on every call (so `n` successive calls add `n`), regardless of store
state; it persists the new value as the 4 bytes at `seekpointUndoCount`
exactly when the store is open, and touches nothing else. -/
theorem C8_increment_undo_count (s : InputRecordingFile) :
    (IncrementUndoCount s).undoCount = s.undoCount + 1 ∧
    (∀ n : Nat, (IncrementUndoCount^[n] s).undoCount = s.undoCount + n) ∧
    (s.recordingFile = none →
      IncrementUndoCount s = { s with undoCount := s.undoCount + 1 }) ∧
    (∀ f, s.recordingFile = some f → headerBlockTotal ≤ f.length →
      ∃ f', IncrementUndoCount s
          = { s with undoCount := s.undoCount + 1, recordingFile := some f' } ∧
        f'.length = f.length ∧
        readBytesAt f' seekpointUndoCount 4 = le32 (s.undoCount + 1) ∧
        (∀ i, i < f.length →
          (i < seekpointUndoCount ∨ seekpointUndoCount + 4 ≤ i) →
          f'[i]? = f[i]?)) := by
  have hstep : ∀ t : InputRecordingFile,
      (IncrementUndoCount t).undoCount = t.undoCount + 1 := by
    intro t
    cases hr : t.recordingFile <;> simp [IncrementUndoCount, hr]
  have h4 : (le32 (s.undoCount + 1)).length = 4 := rfl
  have h565 : seekpointUndoCount = 565 := rfl
  have h570 : headerBlockTotal = 570 := rfl
  refine ⟨hstep s, ?_, ?_, ?_⟩
  · intro n
    induction n with
    | zero => rfl
    | succ n ih =>
      rw [Function.iterate_succ_apply', hstep, ih]
      omega
  · intro h
    simp [IncrementUndoCount, h]
  · intro f hf hlen
    refine ⟨writeBytesAt f seekpointUndoCount (le32 (s.undoCount + 1)), ?_, ?_, ?_, ?_⟩
    · simp [IncrementUndoCount, hf]
    · rw [length_writeBytesAt]
      split_ifs <;> omega
    · exact readBytesAt_writeBytesAt f seekpointUndoCount (le32 (s.undoCount + 1))
    · intro i hi hrange
      rw [getElem?_writeBytesAt]
      rcases hrange with hb | hb
      · rw [if_neg (by omega), if_pos hi]
      · rw [if_neg (by omega), if_pos hi]

/-- **C8 witness**: three closed-store calls leave the counter at 3 and the
open-store call persists 4 bytes. -/
theorem C8_increment_undo_count_witness :
    (IncrementUndoCount^[3]
        (⟨none, "", 0, 0, ⟨1, [], [], []⟩, false⟩ : InputRecordingFile)).undoCount
      = 3 ∧
    (⟨none, "", 0, 0, ⟨1, [], [], []⟩, false⟩ :
        InputRecordingFile).recordingFile = none := by
  refine ⟨?_, rfl⟩
  rw [(C8_increment_undo_count ⟨none, "", 0, 0, ⟨1, [], [], []⟩, false⟩).2.1 3]

/-- **C10.** `BulkReadPadData` on a closed store returns the empty mapping
for every argument combination — the same result as a range in which no
frame could be read — rather than signalling an error. -/
theorem C10_bulk_read_closed (s : InputRecordingFile)
    (frameStart frameEnd : Int) (port : Nat)
    (h : s.recordingFile = none) :
    BulkReadPadData s frameStart frameEnd port = [] := by
  simp [BulkReadPadData, h]

/-- **C10 witness**: a concrete closed store, negative start, wide range. -/
theorem C10_bulk_read_closed_witness :
    (⟨none, "", 0, 0, ⟨1, [], [], []⟩, false⟩ :
        InputRecordingFile).recordingFile = none ∧
    BulkReadPadData ⟨none, "", 0, 0, ⟨1, [], [], []⟩, false⟩ (-5) 100 3 = [] :=
  ⟨rfl, C10_bulk_read_closed ⟨none, "", 0, 0, ⟨1, [], [], []⟩, false⟩
    (-5) 100 3 rfl⟩

namespace InputRecordingFile

/-- `verifyRecordingFileHeader` rejects a file that is too short for the
header block or whose leading version byte is not 1. -/
theorem verify_fails (s : InputRecordingFile) (f : List Nat)
    (hr : s.recordingFile = some f)
    (hcond : f.length < headerBlockTotal ∨ (f[0]?).getD 0 ≠ 1) :
    (verifyRecordingFileHeader s).2 = false := by
  simp only [verifyRecordingFileHeader, hr]
  rcases hcond with h | h
  · rw [if_pos h]
  · by_cases hl : f.length < headerBlockTotal
    · rw [if_pos hl]
    · rw [if_neg hl, if_pos (show (decodeHeader f).version ≠ 1 from h)]

/-- `verifyRecordingFileHeader` never changes the file handle. -/
theorem verify_preserves_handle (s : InputRecordingFile) :
    (verifyRecordingFileHeader s).1.recordingFile = s.recordingFile := by
  cases hr : s.recordingFile with
  | none => simp [verifyRecordingFileHeader, hr]
  | some f =>
    simp only [verifyRecordingFileHeader, hr]
    split_ifs <;> simp [hr]

end InputRecordingFile

open InputRecordingFile

set_option maxRecDepth 8000 in
/-- **C2 counterexample.** With a file that holds exactly one byte of frame
0's block (571 bytes in all), `BulkReadPadData` still returns an entry for
frame 0 even though a positioned read of the full 18-byte per-port block
fails (only one byte is available): the code tests `fread(...)` for a
*nonzero* count, not a full-block count. -/
theorem C2_partial_block_still_included :
    (BulkReadPadData
        ⟨some (List.replicate 571 3), "p", 0, 0, ⟨1, [], [], []⟩, false⟩
        0 1 0).length = 1 ∧
    (readBytesAt (List.replicate 571 3)
        (getRecordingBlockSeekPoint 0 + controllerInputBytes * 0)
        controllerInputBytes).length < controllerInputBytes := by
  constructor
  · rfl
  · decide

/-- **C2 (amended).** `BulkReadPadData` clamps `frameStart` to zero and
iterates the half-open range; it returns at most `frameEnd - frameStart`
entries and never an entry with a negative frame index; a frame of the
(clamped) range appears in the mapping exactly when the positioned read at
its per-port block offset returns at least one byte (so a truncated final
block is still included), and frames whose read returns nothing are
omitted rather than making the operation fail. -/
theorem C2_bulk_read_pad_data (s : InputRecordingFile)
    (frameStart frameEnd : Int) (port : Nat) :
    (BulkReadPadData s frameStart frameEnd port).length
        ≤ (frameEnd - frameStart).toNat ∧
    (∀ p ∈ BulkReadPadData s frameStart frameEnd port,
      0 ≤ p.1 ∧ frameStart ≤ p.1 ∧ p.1 < frameEnd) ∧
    (∀ f, s.recordingFile = some f → ∀ frame : Int,
      ((∃ blk, (frame, blk) ∈ BulkReadPadData s frameStart frameEnd port) ↔
        ((if frameStart < 0 then 0 else frameStart) ≤ frame ∧ frame < frameEnd ∧
         getRecordingBlockSeekPoint frame.toNat + controllerInputBytes * port
           < f.length))) := by
  cases hr : s.recordingFile with
  | none =>
    refine ⟨?_, ?_, ?_⟩
    · simp [BulkReadPadData, hr]
    · intro p hp
      simp [BulkReadPadData, hr] at hp
    · intro f hf
      simp at hf
  | some f =>
    simp only [BulkReadPadData, hr]
    refine ⟨?_, ?_, ?_⟩
    · calc (bulkLoop f port (if frameStart < 0 then 0 else frameStart)
            (frameEnd - if frameStart < 0 then 0 else frameStart).toNat).length
          ≤ (frameEnd - if frameStart < 0 then 0 else frameStart).toNat :=
            bulkLoop_length_le _ _ _ _
      _ ≤ (frameEnd - frameStart).toNat := by split_ifs <;> omega
    · intro p hp
      have hb := mem_bulkLoop_bounds _ _ _ _ p hp
      constructor
      · split_ifs at hb <;> omega
      · constructor
        · split_ifs at hb <;> omega
        · split_ifs at hb <;> omega
    · intro f' hf' frame
      have hff : f = f' := by
        injection hf'
      subst hff
      rw [mem_bulkLoop]
      constructor
      · rintro ⟨h1, h2, h3⟩
        refine ⟨h1, ?_, h3⟩
        split_ifs at h1 h2 <;> omega
      · rintro ⟨h1, h2, h3⟩
        refine ⟨h1, ?_, h3⟩
        split_ifs at h1 ⊢ <;> omega

set_option maxRecDepth 8000 in
/-- **C2 witness**: a 571-byte file yields exactly the frame-0 entry on the
range `[0, 1)` and respects the bounds. -/
theorem C2_bulk_read_pad_data_witness :
    (BulkReadPadData
        ⟨some (List.replicate 571 3), "p", 0, 0, ⟨1, [], [], []⟩, false⟩
        (-2) 1 0).length ≤ ((1 : Int) - (-2)).toNat ∧
    (⟨some (List.replicate 571 3), "p", 0, 0, ⟨1, [], [], []⟩, false⟩ :
        InputRecordingFile).recordingFile = some (List.replicate 571 3) ∧
    (∃ blk, ((0 : Int), blk) ∈
      BulkReadPadData
        ⟨some (List.replicate 571 3), "p", 0, 0, ⟨1, [], [], []⟩, false⟩
        (-2) 1 0) :=
  ⟨(C2_bulk_read_pad_data
      ⟨some (List.replicate 571 3), "p", 0, 0, ⟨1, [], [], []⟩, false⟩
      (-2) 1 0).1,
   rfl,
   ((C2_bulk_read_pad_data
      ⟨some (List.replicate 571 3), "p", 0, 0, ⟨1, [], [], []⟩, false⟩
      (-2) 1 0).2.2 (List.replicate 571 3) rfl 0).2
     (by refine ⟨by decide, by decide, ?_⟩; decide)⟩

open InputRecordingFile

/-- **C3.** `OpenExisting` validation: (a) opening a file that is too short
for the fixed-order header block, or whose stored format version is not the
single supported value 1, fails and leaves the store fully closed
(`IsFileOpen = false`); (b) the header block is read back in the same fixed
order `WriteHeader` writes it — header struct, `totalFrames`, `undoCount`,
savestate flag — so reopening a file written by `WriteHeader` succeeds and
restores every one of those fields. -/
theorem C3_open_existing_validation :
    (∀ (s : InputRecordingFile) (path : String) (f : List Nat),
      (f.length < headerBlockTotal ∨ (f[0]?).getD 0 ≠ 1) →
      (OpenExisting s path (some f)).2 = false ∧
      (OpenExisting s path (some f)).1.IsFileOpen = false) ∧
    (∀ (s t : InputRecordingFile) (path : String) (f f4 : List Nat),
      s.recordingFile = some f →
      s.header.version = 1 →
      s.header.emu.length = emuCapacity →
      s.header.author.length = authorCapacity →
      s.header.gameName.length = gameNameCapacity →
      0 ≤ s.totalFrames → s.totalFrames < 4294967296 →
      s.undoCount < 4294967296 →
      (WriteHeader s).1.recordingFile = some f4 →
      (OpenExisting t path (some f4)).2 = true ∧
      (OpenExisting t path (some f4)).1.header = s.header ∧
      (OpenExisting t path (some f4)).1.totalFrames = s.totalFrames ∧
      (OpenExisting t path (some f4)).1.undoCount = s.undoCount ∧
      (OpenExisting t path (some f4)).1.fromSavestate = s.fromSavestate ∧
      (OpenExisting t path (some f4)).1.IsFileOpen = true) := by
  constructor
  · intro s path f hcond
    have hv : (verifyRecordingFileHeader { s with recordingFile := some f }).2
        = false := verify_fails _ f rfl hcond
    have hh : (verifyRecordingFileHeader
        { s with recordingFile := some f }).1.recordingFile = some f :=
      verify_preserves_handle _
    have hopen : OpenExisting s path (some f)
        = ((Close (verifyRecordingFileHeader
            { s with recordingFile := some f }).1).1, false) := by
      simp [OpenExisting, openFile, hv]
    rw [hopen]
    refine ⟨rfl, ?_⟩
    simp [Close, hh, IsFileOpen]
  · intro s t path f f4 hs hver he ha hg htf0 htf huc hwh
    obtain ⟨hwf, -⟩ := WriteHeader_file s f hs
    rw [hwh] at hwf
    have hf4 : f4 = writeBytesAt f 0 (headerBlob s) := by injection hwf
    subst hf4
    obtain ⟨hTF, hUC, hSS, hH, hV2, hRF, hFN⟩ :=
      verify_loads s { t with recordingFile := some (writeBytesAt f 0 (headerBlob s)) } f rfl
    have hvr2 : (verifyRecordingFileHeader
        { t with recordingFile := some (writeBytesAt f 0 (headerBlob s)) }).2
          = true := hV2.2 (by rw [hver])
    have hdec : decodeHeader (writeBytesAt f 0 (headerBlob s)) = s.header :=
      decodeHeader_writeHeader s f (by rw [hver]; norm_num) he ha hg
    have hopen : OpenExisting t path (some (writeBytesAt f 0 (headerBlob s)))
        = ({ (verifyRecordingFileHeader
            { t with recordingFile := some (writeBytesAt f 0 (headerBlob s)) }).1
              with filename := path }, true) := by
      simp [OpenExisting, openFile, hvr2]
    rw [hopen]
    refine ⟨rfl, ?_, ?_, ?_, ?_, ?_⟩
    · show (verifyRecordingFileHeader _).1.header = s.header
      rw [hH, hdec]
    · show (verifyRecordingFileHeader _).1.totalFrames = s.totalFrames
      rw [hTF]
      exact Int.emod_eq_of_lt htf0 htf
    · show (verifyRecordingFileHeader _).1.undoCount = s.undoCount
      rw [hUC]
      exact Nat.mod_eq_of_lt huc
    · show (verifyRecordingFileHeader _).1.fromSavestate = s.fromSavestate
      rw [hSS]
    · show ((verifyRecordingFileHeader _).1.recordingFile).isSome = true
      rw [hRF]
      rfl

/-- **C9.** The session counters are persisted and reloaded as exactly
4 bytes each by every path that writes or reads them: `SetTotalFrames` and
`IncrementUndoCount` write the 4-byte little-endian low 32 bits at the
counter's fixed offset, `WriteHeader` lays both counters down as 4 bytes,
and validation reads 4 bytes back; consequently the value that round-trips
through the file is the in-memory value reduced modulo 2^32, and counter
values of 2^32 or more are not preserved across a write/reload cycle. -/
theorem C9_counters_round_trip_mod32 :
    (∀ v : Int, (le32i v).length = 4 ∧ de32 (le32i v) = (v.emod 4294967296).toNat) ∧
    (∀ v : Nat, (le32 v).length = 4 ∧ de32 (le32 v) = v % 4294967296) ∧
    (∀ (s : InputRecordingFile) (f : List Nat) (frame : Int),
      s.recordingFile = some f → s.totalFrames < frame →
      ∃ f', (SetTotalFrames s frame).recordingFile = some f' ∧
        readBytesAt f' seekpointTotalFrames 4 = le32i frame) ∧
    (∀ (s : InputRecordingFile) (f : List Nat),
      s.recordingFile = some f →
      ∃ f', (IncrementUndoCount s).recordingFile = some f' ∧
        readBytesAt f' seekpointUndoCount 4 = le32 (s.undoCount + 1)) ∧
    (∀ (s t : InputRecordingFile) (f f4 : List Nat),
      s.recordingFile = some f →
      (WriteHeader s).1.recordingFile = some f4 →
      t.recordingFile = some f4 →
      (verifyRecordingFileHeader t).1.totalFrames
          = s.totalFrames.emod 4294967296 ∧
      (verifyRecordingFileHeader t).1.undoCount = s.undoCount % 4294967296 ∧
      (4294967296 ≤ s.totalFrames →
        (verifyRecordingFileHeader t).1.totalFrames ≠ s.totalFrames) ∧
      (4294967296 ≤ s.undoCount →
        (verifyRecordingFileHeader t).1.undoCount ≠ s.undoCount)) := by
  refine ⟨?_, ?_, ?_, ?_, ?_⟩
  · intro v
    exact ⟨rfl, de32_le32i v⟩
  · intro v
    exact ⟨rfl, de32_le32 v⟩
  · intro s f frame hf hlt
    refine ⟨writeBytesAt f seekpointTotalFrames (le32i frame), ?_, ?_⟩
    · simp only [SetTotalFrames, hf]
      rw [if_neg (by omega)]
    · exact readBytesAt_writeBytesAt f seekpointTotalFrames (le32i frame)
  · intro s f hf
    refine ⟨writeBytesAt f seekpointUndoCount (le32 (s.undoCount + 1)), ?_, ?_⟩
    · simp [IncrementUndoCount, hf]
    · exact readBytesAt_writeBytesAt f seekpointUndoCount (le32 (s.undoCount + 1))
  · intro s t f f4 hs hwh ht
    obtain ⟨hwf, -⟩ := WriteHeader_file s f hs
    rw [hwh] at hwf
    have hf4 : f4 = writeBytesAt f 0 (headerBlob s) := by injection hwf
    subst hf4
    obtain ⟨hTF, hUC, -, -, -, -, -⟩ := verify_loads s t f ht
    have hb1 : 0 ≤ s.totalFrames.emod 4294967296 :=
      Int.emod_nonneg _ (by norm_num)
    have hb2 : s.totalFrames.emod 4294967296 < 4294967296 :=
      Int.emod_lt_of_pos _ (by norm_num)
    refine ⟨hTF, hUC, ?_, ?_⟩
    · intro hge
      rw [hTF]
      omega
    · intro hge
      rw [hUC]
      have : s.undoCount % 4294967296 < 4294967296 := Nat.mod_lt _ (by norm_num)
      omega

set_option maxRecDepth 8000 in
/-- **C3 witness**: a header written by `WriteHeader` on a concrete store
reopens successfully with all fields restored, and a too-short file is
rejected with the store left closed. -/
theorem C3_open_existing_validation_witness :
    (([] : List Nat).length < headerBlockTotal ∨
      (([] : List Nat)[0]?).getD 0 ≠ 1) ∧
    (OpenExisting ⟨none, "", 0, 0, ⟨1, [], [], []⟩, false⟩ "p" (some [])).2
        = false ∧
    (OpenExisting
      ⟨none, "", 0, 0,
        ⟨1, List.replicate 50 0, List.replicate 255 0, List.replicate 255 0⟩,
        false⟩
      "q"
      (some (writeBytesAt [] 0 (headerBlob
        ⟨some [], "p", 5, 7,
          ⟨1, List.replicate 50 0, List.replicate 255 0, List.replicate 255 0⟩,
          true⟩)))).1.totalFrames = 5 := by
  refine ⟨Or.inl (by decide), ?_, ?_⟩
  · exact ((C3_open_existing_validation).1
      ⟨none, "", 0, 0, ⟨1, [], [], []⟩, false⟩ "p" []
      (Or.inl (by decide))).1
  · exact ((C3_open_existing_validation).2
      ⟨some [], "p", 5, 7,
        ⟨1, List.replicate 50 0, List.replicate 255 0, List.replicate 255 0⟩,
        true⟩
      ⟨none, "", 0, 0,
        ⟨1, List.replicate 50 0, List.replicate 255 0, List.replicate 255 0⟩,
        false⟩
      "q" []
      (writeBytesAt [] 0 (headerBlob
        ⟨some [], "p", 5, 7,
          ⟨1, List.replicate 50 0, List.replicate 255 0, List.replicate 255 0⟩,
          true⟩))
      rfl rfl (by simp [emuCapacity]) (by simp [authorCapacity])
      (by simp [gameNameCapacity]) (by decide) (by decide) (by decide)
      (WriteHeader_file _ [] rfl).1).2.2.1

/-- **C9 witness**: an undo counter of 2^32 + 6 written by `WriteHeader`
comes back as 6 — not preserved — while the totalFrames value 5 comes back
reduced modulo 2^32 (unchanged). -/
theorem C9_counters_round_trip_mod32_witness :
    (⟨some [], "p", 5, 4294967302, ⟨1, [], [], []⟩, false⟩ :
        InputRecordingFile).recordingFile = some [] ∧
    (4294967296 ≤ (4294967302 : Nat)) ∧
    (verifyRecordingFileHeader
      ⟨some (writeBytesAt [] 0 (headerBlob
          ⟨some [], "p", 5, 4294967302, ⟨1, [], [], []⟩, false⟩)),
        "", 0, 0, ⟨1, [], [], []⟩, false⟩).1.undoCount
      ≠ (⟨some [], "p", 5, 4294967302, ⟨1, [], [], []⟩, false⟩ :
          InputRecordingFile).undoCount := by
  refine ⟨rfl, by decide, ?_⟩
  exact ((C9_counters_round_trip_mod32).2.2.2.2
    ⟨some [], "p", 5, 4294967302, ⟨1, [], [], []⟩, false⟩
    ⟨some (writeBytesAt [] 0 (headerBlob
        ⟨some [], "p", 5, 4294967302, ⟨1, [], [], []⟩, false⟩)),
      "", 0, 0, ⟨1, [], [], []⟩, false⟩
    []
    (writeBytesAt [] 0 (headerBlob
        ⟨some [], "p", 5, 4294967302, ⟨1, [], [], []⟩, false⟩))
    rfl (WriteHeader_file _ [] rfl).1 rfl).2.2.2 (by decide)

end InputRec
